import Mathlib

/-!
Verification of the Secure-PDF-Viewer access-control core.

This file gives a shallow embedding, in Lean 4, of the security-critical parts
of the repository:

* the nonce store operations of `src/lib/services/nonce.ts`
  (`validateAndConsumeNonce`, `getNonceInfo`, `isNonceValid`),
* the in-memory rate limiter of `src/lib/services/rate-limiter.ts`
  (`checkRateLimit`),
* the watermark compositor of `src/lib/document/watermark.ts`
  (`applyWatermark`, `generateWatermarkText`), and
* the page-release route handler `GET /api/docs/[docId]/pages/[page]`.

The SQL database backing the nonce store is modelled as a list of rows in
insertion order; `queryOne` returns the first matching row and `execute` of an
UPDATE rewrites every matching row, exactly as the SQL statements in the source
do.  External capabilities (decrypt, render, sharp image compositing, the
document registry) are passed in as explicit function parameters, following the
spec, which treats them as black boxes.
-/

namespace SecurePdfViewer

/-! ## Nonce store (src/lib/services/nonce.ts)

A row of the `nonces` table.  Column names follow the SQL schema of
`001_initial_schema.ts`: `id`, `doc_id`, `nonce` (UNIQUE), `session_id`,
`used`, `created_at`.  The `used` column is an integer 0/1 in SQLite and a
boolean in PostgreSQL; it is modelled as `Bool`.
-/
structure NonceRow where
  id : Nat
  doc_id : String
  nonce : String
  session_id : String
  used : Bool
  created_at : String
deriving Repr, DecidableEq, Inhabited

/-- The `nonces` table, in insertion order. -/
abbrev NonceDb := List NonceRow

/-- The WHERE clause `doc_id = ? AND nonce = ? AND used = 0` of
`validateAndConsumeNonce` and `isNonceValid`. -/
def matchUnused (docId nonce : String) (r : NonceRow) : Bool :=
  r.doc_id == docId && (r.nonce == nonce && r.used == false)

/-- The query `SELECT ... FROM nonces WHERE doc_id = ? AND nonce = ? AND
used = 0` run through `queryOne` (first matching row or null). -/
def selectUnused (docId nonce : String) (db : NonceDb) : Option NonceRow :=
  db.find? (matchUnused docId nonce)

/-- First half of `validateAndConsumeNonce`: the `SELECT session_id FROM nonces
WHERE doc_id = ? AND nonce = ? AND used = 0` statement (nonce.ts lines 68-72).
In the source this is a separate awaited statement, so under concurrency other
operations can run between it and the UPDATE below. -/
def consumeSelect (docId nonce : String) (db : NonceDb) : Option String :=
  (selectUnused docId nonce db).map (fun r => r.session_id)

/-- Second half of `validateAndConsumeNonce`: the statement `UPDATE nonces SET
used = 1 WHERE doc_id = ? AND nonce = ?` (nonce.ts lines 77-81).  Note the
UPDATE has no `used = 0` condition: it unconditionally rewrites every row
matching `(doc_id, nonce)`. -/
def consumeUpdate (docId nonce : String) (db : NonceDb) : NonceDb :=
  db.map (fun r =>
    if r.doc_id == docId && r.nonce == nonce then { r with used := true } else r)

/-- Embedding of `validateAndConsumeNonce(docId, nonce)` (nonce.ts lines
65-84): run the SELECT; if no row was found return null and leave the store
unchanged, otherwise run the UPDATE and return the `session_id` obtained by
the SELECT.  Returns the result together with the updated table. -/
def validateAndConsumeNonce (docId nonce : String) (db : NonceDb) :
    Option String × NonceDb :=
  match consumeSelect docId nonce db with
  | none => (none, db)
  | some sessionId => (some sessionId, consumeUpdate docId nonce db)

/-- Embedding of `getNonceInfo(nonce)` (nonce.ts lines 89-94): `SELECT * FROM
nonces WHERE nonce = ?` through `queryOne` — lookup by nonce alone, no
`doc_id` constraint and no mutation. -/
def getNonceInfo (nonce : String) (db : NonceDb) : Option NonceRow :=
  db.find? (fun r => r.nonce == nonce)

/-- Embedding of `isNonceValid(docId, nonce)` (nonce.ts lines 52-59). -/
def isNonceValid (docId nonce : String) (db : NonceDb) : Bool :=
  (selectUnused docId nonce db).isSome

/-- Applying a sequence of (docId, nonce) consume calls to the store.  Per the
spec (section 3), the consume operation is the only protocol operation that
mutates existing nonce rows, so quantifying over a list of subsequent consume
calls captures every later protocol-reachable state of a row. -/
def consumeMany (ops : List (String × String)) (db : NonceDb) : NonceDb :=
  match ops with
  | [] => db
  | (d, n) :: rest => consumeMany rest (validateAndConsumeNonce d n db).2

/-- No row of `db` matches `(docId, nonce)` with `used = 0`. -/
def noUnusedMatch (docId nonce : String) (db : NonceDb) : Prop :=
  selectUnused docId nonce db = none

/-- Pointwise monotonicity of the `used` flag between two table states of the
same shape: every row already marked used stays marked used. -/
def usedLe (db1 db2 : NonceDb) : Prop :=
  db1.length = db2.length ∧
  ∀ i (h1 : i < db1.length) (h2 : i < db2.length),
    (db1[i]).used = true → (db2[i]).used = true

lemma matchUnused_eq_true_iff (docId nonce : String) (r : NonceRow) :
    matchUnused docId nonce r = true ↔
      r.doc_id = docId ∧ r.nonce = nonce ∧ r.used = false := by
  simp [matchUnused, Bool.and_eq_true, beq_iff_eq]

lemma selectUnused_eq_none_iff (docId nonce : String) (db : NonceDb) :
    selectUnused docId nonce db = none ↔
      ∀ r ∈ db, ¬ (r.doc_id = docId ∧ r.nonce = nonce ∧ r.used = false) := by
  unfold selectUnused
  rw [List.find?_eq_none]
  constructor
  · intro h r hr hprops
    exact h r hr ((matchUnused_eq_true_iff docId nonce r).mpr hprops)
  · intro h r hr hmatch
    exact h r hr ((matchUnused_eq_true_iff docId nonce r).mp hmatch)

lemma consumeUpdate_length (docId nonce : String) (db : NonceDb) :
    (consumeUpdate docId nonce db).length = db.length := by
  simp [consumeUpdate]

lemma consumeUpdate_marks_used (docId nonce : String) (db : NonceDb) :
    ∀ r ∈ consumeUpdate docId nonce db,
      r.doc_id = docId → r.nonce = nonce → r.used = true := by
  intro r hr hdoc hnonce
  unfold consumeUpdate at hr
  rcases List.mem_map.mp hr with ⟨x, _, hfx⟩
  by_cases hm : (x.doc_id == docId && x.nonce == nonce) = true
  · rw [if_pos hm] at hfx
    rw [← hfx]
  · rw [if_neg hm] at hfx
    subst hfx
    rw [Bool.and_eq_true, beq_iff_eq, beq_iff_eq] at hm
    exact absurd ⟨hdoc, hnonce⟩ hm

lemma noUnusedMatch_consumeUpdate_self (docId nonce : String) (db : NonceDb) :
    noUnusedMatch docId nonce (consumeUpdate docId nonce db) := by
  unfold noUnusedMatch
  rw [selectUnused_eq_none_iff]
  intro r hr ⟨hdoc, hnonce, hunused⟩
  have := consumeUpdate_marks_used docId nonce db r hr hdoc hnonce
  rw [this] at hunused
  exact Bool.noConfusion hunused

lemma noUnusedMatch_consumeUpdate (docId nonce d n : String) (db : NonceDb)
    (h : noUnusedMatch docId nonce db) :
    noUnusedMatch docId nonce (consumeUpdate d n db) := by
  unfold noUnusedMatch at h ⊢
  rw [selectUnused_eq_none_iff] at h ⊢
  intro r hr ⟨hdoc, hnonce, hunused⟩
  unfold consumeUpdate at hr
  rcases List.mem_map.mp hr with ⟨x, hx, hfx⟩
  by_cases hm : (x.doc_id == d && x.nonce == n) = true
  · rw [if_pos hm] at hfx
    rw [← hfx] at hunused
    exact Bool.noConfusion hunused
  · rw [if_neg hm] at hfx
    subst hfx
    exact h x hx ⟨hdoc, hnonce, hunused⟩

lemma noUnusedMatch_consume (docId nonce d n : String) (db : NonceDb)
    (h : noUnusedMatch docId nonce db) :
    noUnusedMatch docId nonce (validateAndConsumeNonce d n db).2 := by
  unfold validateAndConsumeNonce
  cases hsel : consumeSelect d n db with
  | none => exact h
  | some s => exact noUnusedMatch_consumeUpdate docId nonce d n db h

lemma noUnusedMatch_consumeMany (docId nonce : String)
    (ops : List (String × String)) (db : NonceDb)
    (h : noUnusedMatch docId nonce db) :
    noUnusedMatch docId nonce (consumeMany ops db) := by
  induction ops generalizing db with
  | nil => exact h
  | cons op rest ih =>
    exact ih (validateAndConsumeNonce op.1 op.2 db).2
      (noUnusedMatch_consume docId nonce op.1 op.2 db h)

lemma consume_fst_eq_none_of_noUnusedMatch (docId nonce : String) (db : NonceDb)
    (h : noUnusedMatch docId nonce db) :
    (validateAndConsumeNonce docId nonce db).1 = none := by
  unfold validateAndConsumeNonce consumeSelect
  unfold noUnusedMatch at h
  rw [h]
  rfl

lemma usedLe_refl (db : NonceDb) : usedLe db db :=
  ⟨rfl, fun _ _ _ h => h⟩

lemma usedLe_trans (db1 db2 db3 : NonceDb)
    (h12 : usedLe db1 db2) (h23 : usedLe db2 db3) : usedLe db1 db3 := by
  refine ⟨h12.1.trans h23.1, fun i h1 h3 hu => ?_⟩
  have h2 : i < db2.length := h12.1 ▸ h1
  exact h23.2 i h2 h3 (h12.2 i h1 h2 hu)

lemma usedLe_consumeUpdate (docId nonce : String) (db : NonceDb) :
    usedLe db (consumeUpdate docId nonce db) := by
  refine ⟨(consumeUpdate_length docId nonce db).symm, fun i h1 h2 hu => ?_⟩
  unfold consumeUpdate
  rw [List.getElem_map]
  by_cases hm : ((db[i]).doc_id == docId && (db[i]).nonce == nonce) = true
  · rw [if_pos hm]
  · rw [if_neg hm]
    exact hu

lemma usedLe_consume (docId nonce : String) (db : NonceDb) :
    usedLe db (validateAndConsumeNonce docId nonce db).2 := by
  unfold validateAndConsumeNonce
  cases consumeSelect docId nonce db with
  | none => exact usedLe_refl db
  | some s => exact usedLe_consumeUpdate docId nonce db

lemma usedLe_consumeMany (ops : List (String × String)) (db : NonceDb) :
    usedLe db (consumeMany ops db) := by
  induction ops generalizing db with
  | nil => exact usedLe_refl db
  | cons op rest ih =>
    exact usedLe_trans _ _ _
      (usedLe_consume op.1 op.2 db) (ih (validateAndConsumeNonce op.1 op.2 db).2)

lemma consume_fst_eq_some (docId nonce sessionId : String) (db : NonceDb)
    (hc : (validateAndConsumeNonce docId nonce db).1 = some sessionId) :
    ∃ r, selectUnused docId nonce db = some r ∧ r.session_id = sessionId ∧
      (validateAndConsumeNonce docId nonce db).2 = consumeUpdate docId nonce db := by
  cases hsel : selectUnused docId nonce db with
  | none =>
    exfalso
    have heq : validateAndConsumeNonce docId nonce db = (none, db) := by
      unfold validateAndConsumeNonce consumeSelect
      rw [hsel]
      rfl
    rw [heq] at hc
    exact Option.noConfusion hc
  | some r =>
    have heq : validateAndConsumeNonce docId nonce db
        = (some r.session_id, consumeUpdate docId nonce db) := by
      unfold validateAndConsumeNonce consumeSelect
      rw [hsel]
      rfl
    rw [heq] at hc
    have hsid : r.session_id = sessionId := by injection hc
    exact ⟨r, rfl, hsid, by rw [heq]⟩

/-- C1.  Single use of nonces: if `validateAndConsumeNonce docId nonce`
succeeds on `db` (returning `some sessionId`), then (1) some row of `db` held
`(docId, nonce)` unused with that session id; (2) in the resulting table every
row for `(docId, nonce)` is marked used; (3) after any further sequence of
consume calls whatsoever, `validateAndConsumeNonce docId nonce` returns
`none`; and (4) the `used` flag of every row is monotone — once true it never
goes back to false under further consume calls. -/
theorem nonce_single_use (docId nonce sessionId : String) (db : NonceDb)
    (hc : (validateAndConsumeNonce docId nonce db).1 = some sessionId)
    (ops : List (String × String)) :
    (∃ r ∈ db, r.doc_id = docId ∧ r.nonce = nonce ∧ r.used = false ∧
        r.session_id = sessionId)
    ∧ (∀ r ∈ (validateAndConsumeNonce docId nonce db).2,
        r.doc_id = docId → r.nonce = nonce → r.used = true)
    ∧ (validateAndConsumeNonce docId nonce
        (consumeMany ops (validateAndConsumeNonce docId nonce db).2)).1 = none
    ∧ usedLe (validateAndConsumeNonce docId nonce db).2
        (consumeMany ops (validateAndConsumeNonce docId nonce db).2) := by
  rcases consume_fst_eq_some docId nonce sessionId db hc with ⟨r, hsel, hsid, hsnd⟩
  have hmem : r ∈ db := List.mem_of_find?_eq_some hsel
  have hmatch : matchUnused docId nonce r = true := List.find?_some hsel
  rw [matchUnused_eq_true_iff] at hmatch
  have hno : noUnusedMatch docId nonce (validateAndConsumeNonce docId nonce db).2 := by
    rw [hsnd]; exact noUnusedMatch_consumeUpdate_self docId nonce db
  refine ⟨⟨r, hmem, hmatch.1, hmatch.2.1, hmatch.2.2, hsid⟩, ?_, ?_, ?_⟩
  · rw [hsnd]
    exact consumeUpdate_marks_used docId nonce db
  · exact consume_fst_eq_none_of_noUnusedMatch docId nonce _
      (noUnusedMatch_consumeMany docId nonce ops _ hno)
  · exact usedLe_consumeMany ops _

/-- Witness for C1 at a concrete store: one unused row for `doc-1`, consumed,
then two further consume calls. -/
theorem nonce_single_use_witness :
    ((validateAndConsumeNonce "doc-1" "n1"
        [⟨1, "doc-1", "n1", "s1", false, "t0"⟩]).1 = some "s1")
    ∧ ((∃ r ∈ ([⟨1, "doc-1", "n1", "s1", false, "t0"⟩] : NonceDb),
          r.doc_id = "doc-1" ∧ r.nonce = "n1" ∧ r.used = false ∧
          r.session_id = "s1")
      ∧ (∀ r ∈ (validateAndConsumeNonce "doc-1" "n1"
            [⟨1, "doc-1", "n1", "s1", false, "t0"⟩]).2,
          r.doc_id = "doc-1" → r.nonce = "n1" → r.used = true)
      ∧ (validateAndConsumeNonce "doc-1" "n1"
          (consumeMany [("doc-1", "n1"), ("doc-2", "n2")]
            (validateAndConsumeNonce "doc-1" "n1"
              [⟨1, "doc-1", "n1", "s1", false, "t0"⟩]).2)).1 = none
      ∧ usedLe (validateAndConsumeNonce "doc-1" "n1"
            [⟨1, "doc-1", "n1", "s1", false, "t0"⟩]).2
          (consumeMany [("doc-1", "n1"), ("doc-2", "n2")]
            (validateAndConsumeNonce "doc-1" "n1"
              [⟨1, "doc-1", "n1", "s1", false, "t0"⟩]).2)) :=
  ⟨by decide,
   nonce_single_use "doc-1" "n1" "s1" [⟨1, "doc-1", "n1", "s1", false, "t0"⟩]
     (by decide) [("doc-1", "n1"), ("doc-2", "n2")]⟩

/-! ## C2: the consume operation is not atomic

`validateAndConsumeNonce` is a separate awaited SELECT followed by a separate
awaited UPDATE (nonce.ts lines 68-81), not a single conditional update.  The
following definition runs two concurrent consume calls for the same
`(docId, nonce)` under the interleaving in which both SELECT statements
execute before either UPDATE: each thread executes exactly the statements of
the source, in source order, against the shared store. -/
def consumeRaceBothRead (docId nonce : String) (db : NonceDb) :
    (Option String × Option String) × NonceDb :=
  let readA := consumeSelect docId nonce db
  let readB := consumeSelect docId nonce db
  let db1 := match readA with
    | none => db
    | some _ => consumeUpdate docId nonce db
  let db2 := match readB with
    | none => db1
    | some _ => consumeUpdate docId nonce db1
  ((readA, readB), db2)

/-- C2.  Atomicity of consume fails: on a store holding a single unused nonce
row, two interleaved consume calls for that same `(docId, nonce)` (both
SELECTs scheduled before either UPDATE, which the separate awaited statements
of the source permit) BOTH return the session id `sess-1`, defeating
single-use semantics.  The spec demands that two concurrent consume calls on
the same nonce never both return a non-null session id. -/
theorem consume_race_both_succeed :
    consumeRaceBothRead "doc-1" "aaaa" [⟨1, "doc-1", "aaaa", "sess-1", false, "t0"⟩]
      = ((some "sess-1", some "sess-1"),
         [⟨1, "doc-1", "aaaa", "sess-1", true, "t0"⟩]) := by
  decide

/-- C6.  Document binding of consume: if every row carrying `nonce` was minted
for document `d2` (the `nonce` column is UNIQUE, so there is at most one such
row), then consuming it against a different document `d1` returns null and
leaves the store completely unchanged — in particular the nonce row stays
unused. -/
theorem consume_docid_binding (d1 d2 n : String) (db : NonceDb)
    (hne : d1 ≠ d2)
    (hminted : ∀ r ∈ db, r.nonce = n → r.doc_id = d2) :
    validateAndConsumeNonce d1 n db = (none, db) := by
  have hno : noUnusedMatch d1 n db := by
    unfold noUnusedMatch
    rw [selectUnused_eq_none_iff]
    intro r hr ⟨hdoc, hnonce, _⟩
    exact hne (hdoc ▸ hminted r hr hnonce)
  unfold validateAndConsumeNonce consumeSelect
  unfold noUnusedMatch at hno
  rw [hno]
  rfl

/-- Witness for C6: a nonce minted for `doc-2`, consumed against `doc-1`. -/
theorem consume_docid_binding_witness :
    ("doc-1" ≠ "doc-2")
    ∧ (∀ r ∈ ([⟨1, "doc-2", "n1", "s1", false, "t0"⟩] : NonceDb),
        r.nonce = "n1" → r.doc_id = "doc-2")
    ∧ validateAndConsumeNonce "doc-1" "n1"
        [⟨1, "doc-2", "n1", "s1", false, "t0"⟩]
      = (none, [⟨1, "doc-2", "n1", "s1", false, "t0"⟩]) :=
  ⟨by decide, by decide,
   consume_docid_binding "doc-1" "doc-2" "n1"
     [⟨1, "doc-2", "n1", "s1", false, "t0"⟩] (by decide) (by decide)⟩

/-! ## Rate limiter (src/lib/services/rate-limiter.ts)

The in-memory store is a JS `Map<string, RateLimitEntry>` keyed by the string
`ip + ":" + endpoint`; it is modelled as a function from keys to optional
entries.  Counters are JS numbers; they are modelled as `Int`.
-/

structure RateLimitConfig where
  maxRequests : Int
  windowMs : Int
deriving Repr, DecidableEq

structure RateLimitEntry where
  count : Int
  windowStart : Int
deriving Repr, DecidableEq

structure RateLimitResult where
  allowed : Bool
  remaining : Int
  resetAt : Int
deriving Repr, DecidableEq

/-- The `rateLimitStore` map. -/
def RateStore := String → Option RateLimitEntry

def emptyRateStore : RateStore := fun _ => none

/-- `rateLimitStore.set(key, entry)`. -/
def storeSet (store : RateStore) (k : String) (e : RateLimitEntry) : RateStore :=
  fun x => if x = k then some e else store x

/-- The map key: the template literal joining ip and endpoint with a colon. -/
def rateKey (ip endpoint : String) : String := ip ++ ":" ++ endpoint

/-- Embedding of `checkRateLimit(ip, endpoint, config)` (rate-limiter.ts lines
46-82), with the current time and the store passed explicitly.  A missing or
stale entry (window started more than `windowMs` ago) opens a fresh window
with count 1; at or above the ceiling the call is denied with remaining 0 and
no mutation; otherwise the count is incremented. -/
def checkRateLimit (ip endpoint : String) (cfg : RateLimitConfig) (now : Int)
    (store : RateStore) : RateLimitResult × RateStore :=
  match store (rateKey ip endpoint) with
  | none =>
      (⟨true, cfg.maxRequests - 1, now + cfg.windowMs⟩,
       storeSet store (rateKey ip endpoint) ⟨1, now⟩)
  | some entry =>
      if entry.windowStart < now - cfg.windowMs then
        (⟨true, cfg.maxRequests - 1, now + cfg.windowMs⟩,
         storeSet store (rateKey ip endpoint) ⟨1, now⟩)
      else if entry.count ≥ cfg.maxRequests then
        (⟨false, 0, entry.windowStart + cfg.windowMs⟩, store)
      else
        (⟨true, cfg.maxRequests - (entry.count + 1),
          entry.windowStart + cfg.windowMs⟩,
         storeSet store (rateKey ip endpoint) ⟨entry.count + 1, entry.windowStart⟩)

/-- A sequence of `checkRateLimit` calls for one (ip, endpoint) pair at the
given times, threading the store; returns the list of results and the final
store. -/
def runRateCalls (ip endpoint : String) (cfg : RateLimitConfig) (ts : List Int)
    (store : RateStore) : List RateLimitResult × RateStore :=
  match ts with
  | [] => ([], store)
  | t :: rest =>
      let step := checkRateLimit ip endpoint cfg t store
      let tail := runRateCalls ip endpoint cfg rest step.2
      (step.1 :: tail.1, tail.2)

lemma checkRateLimit_fresh (ip endpoint : String) (cfg : RateLimitConfig)
    (now : Int) (store : RateStore)
    (hfresh : store (rateKey ip endpoint) = none) :
    checkRateLimit ip endpoint cfg now store
      = (⟨true, cfg.maxRequests - 1, now + cfg.windowMs⟩,
         storeSet store (rateKey ip endpoint) ⟨1, now⟩) := by
  unfold checkRateLimit
  rw [hfresh]

lemma checkRateLimit_denied (ip endpoint : String) (cfg : RateLimitConfig)
    (now : Int) (store : RateStore) (entry : RateLimitEntry)
    (hstore : store (rateKey ip endpoint) = some entry)
    (hlive : ¬ entry.windowStart < now - cfg.windowMs)
    (hceil : cfg.maxRequests ≤ entry.count) :
    checkRateLimit ip endpoint cfg now store
      = (⟨false, 0, entry.windowStart + cfg.windowMs⟩, store) := by
  unfold checkRateLimit
  rw [hstore]
  dsimp only
  rw [if_neg hlive, if_pos hceil]

lemma checkRateLimit_allowed (ip endpoint : String) (cfg : RateLimitConfig)
    (now : Int) (store : RateStore) (entry : RateLimitEntry)
    (hstore : store (rateKey ip endpoint) = some entry)
    (hlive : ¬ entry.windowStart < now - cfg.windowMs)
    (hceil : entry.count < cfg.maxRequests) :
    checkRateLimit ip endpoint cfg now store
      = (⟨true, cfg.maxRequests - (entry.count + 1),
          entry.windowStart + cfg.windowMs⟩,
         storeSet store (rateKey ip endpoint) ⟨entry.count + 1, entry.windowStart⟩) := by
  unfold checkRateLimit
  rw [hstore]
  dsimp only
  rw [if_neg hlive, if_neg (not_le.mpr hceil)]

lemma storeSet_same (store : RateStore) (k : String) (e : RateLimitEntry) :
    storeSet store k e k = some e := by
  unfold storeSet
  rw [if_pos rfl]

lemma storeSet_other (store : RateStore) (k x : String) (e : RateLimitEntry)
    (h : x ≠ k) : storeSet store k e x = store x := by
  unfold storeSet
  rw [if_neg h]

/-- Behaviour of a run of in-window calls starting from a live entry with
count `c` and window start `t0`: the i-th call (0-based) is allowed iff
`c + i < N`, denied calls report remaining 0, and no other key of the store is
touched. -/
lemma runRateCalls_from_entry (ip endpoint : String) (cfg : RateLimitConfig)
    (N : Nat) (hN : cfg.maxRequests = (N : Int)) (t0 : Int)
    (c : Nat) (hcN : c ≤ N)
    (ts : List Int) (hts : ∀ t ∈ ts, t ≤ t0 + cfg.windowMs)
    (store : RateStore)
    (hstore : store (rateKey ip endpoint) = some ⟨(c : Int), t0⟩) :
    (∀ i (h : i < (runRateCalls ip endpoint cfg ts store).1.length),
        (((runRateCalls ip endpoint cfg ts store).1[i]).allowed = true ↔ c + i < N)
        ∧ (N ≤ c + i → ((runRateCalls ip endpoint cfg ts store).1[i]).remaining = 0))
    ∧ (∀ k, k ≠ rateKey ip endpoint →
        (runRateCalls ip endpoint cfg ts store).2 k = store k) := by
  induction ts generalizing store c with
  | nil =>
    refine ⟨fun i h => absurd h (by simp [runRateCalls]), fun k _ => rfl⟩
  | cons t rest ih =>
    have hlive : ¬ (((⟨(c : Int), t0⟩ : RateLimitEntry)).windowStart
        < t - cfg.windowMs) := by
      show ¬ t0 < t - cfg.windowMs
      have := hts t (List.mem_cons_self t rest)
      omega
    have htsrest : ∀ u ∈ rest, u ≤ t0 + cfg.windowMs :=
      fun u hu => hts u (List.mem_cons_of_mem t hu)
    by_cases hceil : (N : Int) ≤ (c : Int)
    · -- saturated: denied, store untouched
      have hstep := checkRateLimit_denied ip endpoint cfg t store ⟨(c : Int), t0⟩
        hstore hlive (by show cfg.maxRequests ≤ (c : Int); rw [hN]; exact hceil)
      have hrec := ih c hcN htsrest store hstore
      constructor
      · intro i h
        cases i with
        | zero =>
          simp only [runRateCalls, hstep, List.getElem_cons_zero]
          constructor
          · constructor
            · intro hfalse; exact Bool.noConfusion hfalse
            · intro hlt; exfalso; omega
          · intro _; trivial
        | succ j =>
          have hlen : j < (runRateCalls ip endpoint cfg rest store).1.length := by
            simp only [runRateCalls, hstep, List.length_cons] at h
            omega
          have hj := hrec.1 j hlen
          simp only [runRateCalls, hstep, List.getElem_cons_succ]
          constructor
          · rw [hj.1]
            omega
          · intro hle
            exact hj.2 (by omega)
      · intro k hk
        simp only [runRateCalls, hstep]
        exact hrec.2 k hk
    · -- below the ceiling: allowed, count incremented
      have hclt : (c : Int) < (N : Int) := lt_of_not_le hceil
      have hcltN : c < N := by exact_mod_cast hclt
      have hstep := checkRateLimit_allowed ip endpoint cfg t store ⟨(c : Int), t0⟩
        hstore hlive (by show (c : Int) < cfg.maxRequests; rw [hN]; exact hclt)
      have hstore2 : (storeSet store (rateKey ip endpoint)
          ⟨(c : Int) + 1, t0⟩) (rateKey ip endpoint)
          = some ⟨((c + 1 : Nat) : Int), t0⟩ := by
        simp [storeSet_same]
      have hrec := ih (c + 1) (by omega) htsrest
        (storeSet store (rateKey ip endpoint) ⟨(c : Int) + 1, t0⟩) hstore2
      constructor
      · intro i h
        cases i with
        | zero =>
          simp only [runRateCalls, hstep, List.getElem_cons_zero]
          constructor
          · constructor
            · intro _; omega
            · intro _; trivial
          · intro hle; exfalso; omega
        | succ j =>
          have hlen : j < (runRateCalls ip endpoint cfg rest
              (storeSet store (rateKey ip endpoint) ⟨(c : Int) + 1, t0⟩)).1.length := by
            simp only [runRateCalls, hstep, List.length_cons] at h
            omega
          have hj := hrec.1 j hlen
          simp only [runRateCalls, hstep, List.getElem_cons_succ]
          constructor
          · rw [hj.1]
            omega
          · intro hle
            exact hj.2 (by omega)
      · intro k hk
        simp only [runRateCalls, hstep]
        rw [hrec.2 k hk]
        exact storeSet_other store (rateKey ip endpoint) k ⟨(c : Int) + 1, t0⟩ hk

/-- C7 counterexample.  The claim fails as stated, at explicit inputs, in two
ways.  (1) Cross-talk between different (client key, endpoint) pairs: with
`maxRequests = 1`, a call for client `10.0.0.1` on endpoint `a:b` makes the
very first call of the DIFFERENT pair (client `10.0.0.1:a`, endpoint `b`)
denied, because both pairs share the colon-joined store key `10.0.0.1:a:b` —
so a different endpoint or client key is not always unaffected.  (2) With
`maxRequests = 0` the first call is allowed (the fresh-window path never
checks the ceiling) and reports remaining `-1`, not denied as the claim's
reading (first N = 0 allowed, all later denied) requires. -/
theorem rateLimit_claim_counterexample :
    ((checkRateLimit "10.0.0.1" "a:b" ⟨1, 60000⟩ 0 emptyRateStore).1.allowed = true
      ∧ (checkRateLimit "10.0.0.1:a" "b" ⟨1, 60000⟩ 0
          (checkRateLimit "10.0.0.1" "a:b" ⟨1, 60000⟩ 0 emptyRateStore).2).1.allowed
        = false)
    ∧ ((checkRateLimit "1.2.3.4" "/api/docs/pages" ⟨0, 60000⟩ 0
          emptyRateStore).1.allowed = true
      ∧ (checkRateLimit "1.2.3.4" "/api/docs/pages" ⟨0, 60000⟩ 0
          emptyRateStore).1.remaining = -1) := by
  decide

/-- C7 (amended).  Rate-limit ceiling: for any (client key, endpoint) pair
with `maxRequests = N ≥ 1` and no live entry for its key, in a run of calls
all within the window opened by the first call, the first N calls return
`allowed = true` and every later call returns `allowed = false` with
`remaining = 0`; entries stored under every other map key are untouched, so
any (client, endpoint) pair whose colon-joined key `ip:endpoint` differs (in
particular any different pair whose client keys contain no colon) is
unaffected. -/
theorem checkRateLimit_ceiling (ip endpoint : String) (cfg : RateLimitConfig)
    (N : Nat) (hN : cfg.maxRequests = (N : Int)) (hNpos : 0 < N)
    (store : RateStore) (hfresh : store (rateKey ip endpoint) = none)
    (t0 : Int) (ts : List Int) (hts : ∀ t ∈ ts, t ≤ t0 + cfg.windowMs) :
    (∀ i (h : i < (runRateCalls ip endpoint cfg (t0 :: ts) store).1.length),
        (((runRateCalls ip endpoint cfg (t0 :: ts) store).1[i]).allowed = true
          ↔ i < N)
        ∧ (N ≤ i →
            ((runRateCalls ip endpoint cfg (t0 :: ts) store).1[i]).remaining = 0))
    ∧ (∀ k, k ≠ rateKey ip endpoint →
        (runRateCalls ip endpoint cfg (t0 :: ts) store).2 k = store k) := by
  have hstep := checkRateLimit_fresh ip endpoint cfg t0 store hfresh
  have hstore1 : (storeSet store (rateKey ip endpoint) ⟨1, t0⟩) (rateKey ip endpoint)
      = some ⟨((1 : Nat) : Int), t0⟩ := by
    simp [storeSet_same]
  have hrec := runRateCalls_from_entry ip endpoint cfg N hN t0 1 hNpos ts hts
    (storeSet store (rateKey ip endpoint) ⟨1, t0⟩) hstore1
  constructor
  · intro i h
    cases i with
    | zero =>
      simp only [runRateCalls, hstep, List.getElem_cons_zero]
      constructor
      · constructor
        · intro _; omega
        · intro _; trivial
      · intro hle; exfalso; omega
    | succ j =>
      have hlen : j < (runRateCalls ip endpoint cfg ts
          (storeSet store (rateKey ip endpoint) ⟨1, t0⟩)).1.length := by
        simp only [runRateCalls, hstep, List.length_cons] at h
        omega
      have hj := hrec.1 j hlen
      simp only [runRateCalls, hstep, List.getElem_cons_succ]
      constructor
      · rw [hj.1]
        omega
      · intro hle
        exact hj.2 (by omega)
  · intro k hk
    simp only [runRateCalls, hstep]
    rw [hrec.2 k hk]
    exact storeSet_other store (rateKey ip endpoint) k ⟨1, t0⟩ hk

/-- Witness for the amended C7 at a concrete input: client `1.2.3.4`,
endpoint `/api/docs/pages`, ceiling 2, three calls inside one window. -/
theorem checkRateLimit_ceiling_witness :
    ((⟨2, 60000⟩ : RateLimitConfig).maxRequests = ((2 : Nat) : Int)
      ∧ 0 < 2
      ∧ emptyRateStore (rateKey "1.2.3.4" "/api/docs/pages") = none
      ∧ ∀ t ∈ ([10, 20] : List Int), t ≤ 0 + (⟨2, 60000⟩ : RateLimitConfig).windowMs)
    ∧ ((∀ i (h : i < (runRateCalls "1.2.3.4" "/api/docs/pages" ⟨2, 60000⟩
            ([0, 10, 20] : List Int) emptyRateStore).1.length),
          (((runRateCalls "1.2.3.4" "/api/docs/pages" ⟨2, 60000⟩
              ([0, 10, 20] : List Int) emptyRateStore).1[i]).allowed = true ↔ i < 2)
          ∧ (2 ≤ i → ((runRateCalls "1.2.3.4" "/api/docs/pages" ⟨2, 60000⟩
              ([0, 10, 20] : List Int) emptyRateStore).1[i]).remaining = 0))
      ∧ (∀ k, k ≠ rateKey "1.2.3.4" "/api/docs/pages" →
          (runRateCalls "1.2.3.4" "/api/docs/pages" ⟨2, 60000⟩
            ([0, 10, 20] : List Int) emptyRateStore).2 k = emptyRateStore k)) :=
  ⟨⟨by decide, by decide, rfl, by decide⟩,
   checkRateLimit_ceiling "1.2.3.4" "/api/docs/pages" ⟨2, 60000⟩ 2 (by decide)
     (by decide) emptyRateStore rfl 0 [10, 20] (by decide)⟩

/-! ## Watermark compositor (src/lib/document/watermark.ts)

`WatermarkInfo` has five optional string fields.  JS tests each with
truthiness (`if (info.ip) ...`), so a missing field and an empty string are
both skipped.  `sessionId` and `requestId` are rendered through
`substring(0, 8)`.  The parts are joined by `parts.join(' | ')`.  The sharp
image pipeline that rasterises the SVG overlay is an external capability and
is passed in as the `composite` function; when the generated text is empty
the source returns the input buffer itself before ever touching sharp.
-/

structure WatermarkInfo where
  ip : Option String
  timestamp : Option String
  sessionId : Option String
  requestId : Option String
  customText : Option String
deriving Repr, DecidableEq

/-- JS `String.prototype.substring(0, n)`: the first `n` characters (all of
the string when it is shorter). -/
def jsSubstring0 (s : String) (n : Nat) : String := String.mk (s.data.take n)

/-- One `if (field) parts.push(render(field))` step of
`generateWatermarkText`: the rendered singleton when the field is present and
truthy (non-empty), nothing otherwise. -/
def fieldParts (o : Option String) (render : String → String) : List String :=
  match o with
  | none => []
  | some v => if v = "" then [] else [render v]

/-- The `parts` array built by `generateWatermarkText` (watermark.ts lines
78-83), in push order. -/
def watermarkParts (info : WatermarkInfo) : List String :=
  fieldParts info.ip (fun v => "IP: " ++ v)
    ++ fieldParts info.timestamp (fun v => "Time: " ++ v)
    ++ fieldParts info.sessionId (fun v => "Session: " ++ jsSubstring0 v 8)
    ++ fieldParts info.requestId (fun v => "Req: " ++ jsSubstring0 v 8)
    ++ fieldParts info.customText (fun v => v)

/-- JS `Array.prototype.join(' | ')`. -/
def joinSep (parts : List String) : String :=
  match parts with
  | [] => ""
  | [p] => p
  | p :: rest => p ++ " | " ++ joinSep rest

/-- Embedding of `generateWatermarkText(info)` (watermark.ts lines 77-85). -/
def generateWatermarkText (info : WatermarkInfo) : String :=
  joinSep (watermarkParts info)

/-- Embedding of `applyWatermark(imageBuffer, info)` (watermark.ts lines
27-72).  When the generated text is falsy (empty) the input buffer itself is
returned; otherwise the sharp pipeline (`composite`) re-encodes the image
with the tiled SVG overlay carrying the text. -/
def applyWatermark (composite : List Nat → String → List Nat)
    (imageBuffer : List Nat) (info : WatermarkInfo) : List Nat :=
  if generateWatermarkText info = "" then imageBuffer
  else composite imageBuffer (generateWatermarkText info)

/-- C9.  Watermark no-op identity: when every field of the `WatermarkInfo` is
absent, `applyWatermark` returns the input buffer itself — the sharp
re-encode path is never taken. -/
theorem applyWatermark_noop (composite : List Nat → String → List Nat)
    (imageBuffer : List Nat) (info : WatermarkInfo)
    (h1 : info.ip = none) (h2 : info.timestamp = none)
    (h3 : info.sessionId = none) (h4 : info.requestId = none)
    (h5 : info.customText = none) :
    applyWatermark composite imageBuffer info = imageBuffer := by
  unfold applyWatermark generateWatermarkText watermarkParts
  rw [h1, h2, h3, h4, h5]
  rfl

/-- Witness for C9 at a concrete buffer and a compositor that would visibly
change the bytes if it ran. -/
theorem applyWatermark_noop_witness :
    ((⟨none, none, none, none, none⟩ : WatermarkInfo).ip = none
      ∧ (⟨none, none, none, none, none⟩ : WatermarkInfo).timestamp = none
      ∧ (⟨none, none, none, none, none⟩ : WatermarkInfo).sessionId = none
      ∧ (⟨none, none, none, none, none⟩ : WatermarkInfo).requestId = none
      ∧ (⟨none, none, none, none, none⟩ : WatermarkInfo).customText = none)
    ∧ applyWatermark (fun b _ => 0 :: b) [1, 2, 3] ⟨none, none, none, none, none⟩
      = [1, 2, 3] :=
  ⟨⟨rfl, rfl, rfl, rfl, rfl⟩,
   applyWatermark_noop (fun b _ => 0 :: b) [1, 2, 3]
     ⟨none, none, none, none, none⟩ rfl rfl rfl rfl rfl⟩

/-! ## C10: session ids appear only truncated

`occursIn a b` is substring containment of `a` in `b` at the character
level. -/

def occursIn (needle hay : String) : Prop := needle.data <:+: hay.data

instance (a b : String) : Decidable (occursIn a b) :=
  List.decidableInfix a.data b.data

lemma joinSep_cons2 (p q : String) (rest : List String) :
    joinSep (p :: q :: rest) = p ++ " | " ++ joinSep (q :: rest) := rfl

lemma notOccursOfShort (s u : List Char) (h : u.length < s.length) :
    ¬ s <:+: u :=
  fun hi => absurd hi.length_le (by omega)

lemma infixOfCons (s l : List Char) (c : Char) (h : s <:+: l) :
    s <:+: c :: l := by
  rcases h with ⟨u, v, huv⟩
  exact ⟨c :: u, v, by rw [← huv]; rfl⟩

lemma headMemOfPref (s l : List Char) (c : Char) (hne : s ≠ [])
    (h : s <+: c :: l) : c ∈ s := by
  rcases h with ⟨t, ht⟩
  cases s with
  | nil => exact absurd rfl hne
  | cons a s2 =>
    have hpair : a = c ∧ s2 ++ t = l :=
      List.cons.injEq a (s2 ++ t) c l ▸ (ht : a :: (s2 ++ t) = c :: l)
    rw [hpair.1]
    exact List.mem_cons_self c s2

lemma prefStopsAtSpace (s : List Char) (hsp : (' ' : Char) ∉ s) :
    ∀ (w rest : List Char), s <+: w ++ ' ' :: rest → s <+: w := by
  intro w
  induction w generalizing s with
  | nil =>
    intro rest h
    cases s with
    | nil => exact List.nil_prefix
    | cons a s2 =>
      exfalso
      rcases h with ⟨t, ht⟩
      have hpair : a = ' ' ∧ s2 ++ t = rest :=
        List.cons.injEq a (s2 ++ t) ' ' rest ▸ (ht : a :: (s2 ++ t) = ' ' :: rest)
      rw [hpair.1] at hsp
      exact hsp (List.mem_cons_self _ _)
  | cons x w2 ih =>
    intro rest h
    cases s with
    | nil => exact List.nil_prefix
    | cons a s2 =>
      rcases h with ⟨t, ht⟩
      have hpair : a = x ∧ s2 ++ t = w2 ++ ' ' :: rest :=
        List.cons.injEq a (s2 ++ t) x (w2 ++ ' ' :: rest) ▸
          (ht : a :: (s2 ++ t) = x :: (w2 ++ ' ' :: rest))
      have hsp2 : (' ' : Char) ∉ s2 := fun hm => hsp (List.mem_cons_of_mem a hm)
      have hpre : s2 <+: w2 := ih s2 hsp2 rest ⟨t, hpair.2⟩
      rcases hpre with ⟨t2, ht3⟩
      exact ⟨t2, by rw [hpair.1]; rw [← ht3]; rfl⟩

lemma infixPastSpace (s : List Char) (hne : s ≠ []) (hsp : (' ' : Char) ∉ s) :
    ∀ (u rest : List Char), ¬ s <:+: u → s <:+: u ++ ' ' :: rest →
      s <:+: rest := by
  intro u
  induction u generalizing s with
  | nil =>
    intro rest _ h
    rcases List.infix_cons_iff.mp h with hpre | htail
    · exfalso
      have := headMemOfPref s rest ' ' hne hpre
      exact hsp this
    · exact htail
  | cons x u2 ih =>
    intro rest hnotu h
    have h2 : s <:+: x :: (u2 ++ ' ' :: rest) := h
    rcases List.infix_cons_iff.mp h2 with hpre | htail
    · exfalso
      have hpw : s <+: x :: u2 := by
        have : s <+: (x :: u2) ++ ' ' :: rest := hpre
        exact prefStopsAtSpace s hsp (x :: u2) rest this
      rcases hpw with ⟨t, ht⟩
      exact hnotu ⟨[], t, by rw [← ht]; rfl⟩
    · have hnotu2 : ¬ s <:+: u2 := fun hin => hnotu (infixOfCons s u2 x hin)
      exact ih s hne hsp rest hnotu2 htail

lemma notOccursJoinSep (s : String) (parts : List String)
    (hne : s.data ≠ [])
    (hsp : (' ' : Char) ∉ s.data) (hpipe : ('|' : Char) ∉ s.data)
    (hparts : ∀ p ∈ parts, ¬ occursIn s p) :
    ¬ occursIn s (joinSep parts) := by
  induction parts with
  | nil =>
    intro h
    rcases h with ⟨u, v, huv⟩
    have : u = [] ∧ s.data ++ v = [] := by
      have huv2 : u ++ (s.data ++ v) = [] := by
        rw [← List.append_assoc]
        exact huv
      exact List.append_eq_nil.mp huv2
    rcases List.append_eq_nil.mp this.2 with ⟨hs, _⟩
    exact hne hs
  | cons p rest ih =>
    cases rest with
    | nil => exact hparts p (List.mem_singleton.mpr rfl)
    | cons q rest2 =>
      intro h
      have hjoin : (joinSep (p :: q :: rest2)).data
          = p.data ++ ' ' :: '|' :: ' ' :: (joinSep (q :: rest2)).data := by
        rw [joinSep_cons2, String.data_append, String.data_append,
          List.append_assoc]
        rfl
      rw [occursIn, hjoin] at h
      have hnotp : ¬ s.data <:+: p.data :=
        hparts p (List.mem_cons_self _ _)
      have h2 : s.data <:+: '|' :: ' ' :: (joinSep (q :: rest2)).data :=
        infixPastSpace s.data hne hsp p.data _ hnotp h
      rcases List.infix_cons_iff.mp h2 with hpre | h3
      · exact hpipe (headMemOfPref s.data _ '|' hne hpre)
      rcases List.infix_cons_iff.mp h3 with hpre | h4
      · exact hsp (headMemOfPref s.data _ ' ' hne hpre)
      · have hrest : ∀ r ∈ q :: rest2, ¬ occursIn s r :=
          fun r hr => hparts r (List.mem_cons_of_mem p hr)
        exact ih hrest h4

lemma occursJoinSepOfMem (p : String) (parts : List String) (hp : p ∈ parts) :
    occursIn p (joinSep parts) := by
  induction parts with
  | nil => cases hp
  | cons q rest ih =>
    cases rest with
    | nil =>
      have : p = q := List.mem_singleton.mp hp
      rw [this]
      exact ⟨[], [], by simp [joinSep]⟩
    | cons r rest2 =>
      rcases List.mem_cons.mp hp with heq | hmem
      · rw [heq]
        refine ⟨[], (" | " ++ joinSep (r :: rest2)).data, ?_⟩
        rw [joinSep_cons2, String.data_append, String.data_append]
        simp
      · rcases ih hmem with ⟨u, v, huv⟩
        refine ⟨(q ++ " | ").data ++ u, v, ?_⟩
        rw [joinSep_cons2, String.data_append, String.data_append,
          String.data_append, ← huv]
        simp [List.append_assoc]

lemma fieldParts_some (v : String) (render : String → String) :
    fieldParts (some v) render = if v = "" then [] else [render v] := rfl

lemma mem_fieldParts (o : Option String) (render : String → String)
    (p : String) (hp : p ∈ fieldParts o render) :
    ∃ v, o = some v ∧ p = render v := by
  cases o with
  | none => cases hp
  | some v =>
    rw [fieldParts_some] at hp
    by_cases hv : v = ""
    · rw [if_pos hv] at hp
      cases hp
    · rw [if_neg hv] at hp
      exact ⟨v, rfl, (List.mem_singleton.mp hp)⟩

lemma watermarkParts_not_contain (info : WatermarkInfo) (s : String)
    (hlen : s.length = 36) (hsp : (' ' : Char) ∉ s.data)
    (hip : ∀ v, info.ip = some v → ¬ occursIn s v)
    (htime : ∀ v, info.timestamp = some v → ¬ occursIn s v)
    (hct : ∀ v, info.customText = some v → ¬ occursIn s v) :
    ∀ p ∈ watermarkParts info, ¬ occursIn s p := by
  have hdlen : s.data.length = 36 := hlen
  have hne : s.data ≠ [] := by
    intro h
    rw [h] at hdlen
    simp at hdlen
  intro p hp
  unfold watermarkParts at hp
  rcases List.mem_append.mp hp with hp4 | hcust
  rotate_left
  · -- custom text part: the text itself
    rcases mem_fieldParts _ _ _ hcust with ⟨v, hv, hpv⟩
    rw [hpv]
    exact hct v hv
  rcases List.mem_append.mp hp4 with hp3 | hreqp
  rotate_left
  · -- requestId part: "Req: " followed by at most 8 characters, too short
    rcases mem_fieldParts _ _ _ hreqp with ⟨v, _, rfl⟩
    intro hocc
    have hlen2 : ("Req: " ++ jsSubstring0 v 8).data.length ≤ 13 := by
      rw [String.data_append]
      simp [jsSubstring0]
    have := hocc.length_le
    omega
  rcases List.mem_append.mp hp3 with hp2 | hsess
  rotate_left
  · -- session part: "Session: " followed by 8 characters, length 17 < 36
    rcases mem_fieldParts _ _ _ hsess with ⟨v, _, rfl⟩
    intro hocc
    have hlen2 : ("Session: " ++ jsSubstring0 v 8).data.length ≤ 17 := by
      rw [String.data_append]
      simp [jsSubstring0]
    have := hocc.length_le
    omega
  rcases List.mem_append.mp hp2 with hipp | htimep
  · -- ip part: "IP: " ++ v
    rcases mem_fieldParts _ _ _ hipp with ⟨v, hv, rfl⟩
    intro hocc
    have hdata : ("IP: " ++ v).data = ['I', 'P', ':'] ++ ' ' :: v.data := by
      rw [String.data_append]
      rfl
    rw [occursIn, hdata] at hocc
    have hshort : ¬ s.data <:+: ['I', 'P', ':'] :=
      notOccursOfShort s.data _ (by rw [hdlen]; simp)
    exact hip v hv (infixPastSpace s.data hne hsp _ _ hshort hocc)
  · -- timestamp part: "Time: " ++ v
    rcases mem_fieldParts _ _ _ htimep with ⟨v, hv, rfl⟩
    intro hocc
    have hdata : ("Time: " ++ v).data = ['T', 'i', 'm', 'e', ':'] ++ ' ' :: v.data := by
      rw [String.data_append]
      rfl
    rw [occursIn, hdata] at hocc
    have hshort : ¬ s.data <:+: ['T', 'i', 'm', 'e', ':'] :=
      notOccursOfShort s.data _ (by rw [hdlen]; simp)
    exact htime v hv (infixPastSpace s.data hne hsp _ _ hshort hocc)

/-- C10.  Session-id truncation: whenever the session id field is present
(with a 36-character session id, space-free and pipe-free as UUIDs are, and
not itself embedded in the ip, timestamp, or custom text fields), the
generated watermark label (a) carries the part `Session: ` followed by
exactly the first 8 characters of the session id, pushed among the present
fields and joined by the fixed separator, (b) contains that truncated part as
a substring, and (c) never contains the full session id as a substring. -/
theorem watermark_sessionId_truncation (info : WatermarkInfo) (s : String)
    (hsid : info.sessionId = some s) (hlen : s.length = 36)
    (hsp : (' ' : Char) ∉ s.data) (hpipe : ('|' : Char) ∉ s.data)
    (hip : ∀ v, info.ip = some v → ¬ occursIn s v)
    (htime : ∀ v, info.timestamp = some v → ¬ occursIn s v)
    (hct : ∀ v, info.customText = some v → ¬ occursIn s v) :
    ("Session: " ++ jsSubstring0 s 8) ∈ watermarkParts info
    ∧ occursIn ("Session: " ++ jsSubstring0 s 8) (generateWatermarkText info)
    ∧ ¬ occursIn s (generateWatermarkText info) := by
  have hsne : s ≠ "" := by
    intro h
    rw [h] at hlen
    simp at hlen
  have hmem : ("Session: " ++ jsSubstring0 s 8) ∈ watermarkParts info := by
    unfold watermarkParts
    have : ("Session: " ++ jsSubstring0 s 8)
        ∈ fieldParts info.sessionId (fun v => "Session: " ++ jsSubstring0 v 8) := by
      rw [hsid, fieldParts_some, if_neg hsne]
      exact List.mem_singleton.mpr rfl
    exact List.mem_append.mpr (Or.inl (List.mem_append.mpr (Or.inl
      (List.mem_append.mpr (Or.inr this)))))
  have hdlen : s.data.length = 36 := hlen
  have hne : s.data ≠ [] := by
    intro h
    rw [h] at hdlen
    simp at hdlen
  refine ⟨hmem, occursJoinSepOfMem _ _ hmem, ?_⟩
  exact notOccursJoinSep s (watermarkParts info) hne hsp hpipe
    (watermarkParts_not_contain info s hlen hsp hip htime hct)

/-- Witness for C10 at a concrete UUID-shaped session id with all other
fields populated. -/
theorem watermark_sessionId_truncation_witness :
    ((⟨some "10.0.0.7", some "2024-01-01T00:00:00Z",
        some "aaaaaaaa-bbbb-cccc-dddd-eeeeeeeeeeee", none,
        some "CONFIDENTIAL"⟩ : WatermarkInfo).sessionId
        = some "aaaaaaaa-bbbb-cccc-dddd-eeeeeeeeeeee"
      ∧ ("aaaaaaaa-bbbb-cccc-dddd-eeeeeeeeeeee" : String).length = 36)
    ∧ (("Session: " ++ jsSubstring0 "aaaaaaaa-bbbb-cccc-dddd-eeeeeeeeeeee" 8)
        ∈ watermarkParts ⟨some "10.0.0.7", some "2024-01-01T00:00:00Z",
            some "aaaaaaaa-bbbb-cccc-dddd-eeeeeeeeeeee", none,
            some "CONFIDENTIAL"⟩
      ∧ occursIn ("Session: " ++ jsSubstring0 "aaaaaaaa-bbbb-cccc-dddd-eeeeeeeeeeee" 8)
          (generateWatermarkText ⟨some "10.0.0.7", some "2024-01-01T00:00:00Z",
            some "aaaaaaaa-bbbb-cccc-dddd-eeeeeeeeeeee", none,
            some "CONFIDENTIAL"⟩)
      ∧ ¬ occursIn "aaaaaaaa-bbbb-cccc-dddd-eeeeeeeeeeee"
          (generateWatermarkText ⟨some "10.0.0.7", some "2024-01-01T00:00:00Z",
            some "aaaaaaaa-bbbb-cccc-dddd-eeeeeeeeeeee", none,
            some "CONFIDENTIAL"⟩)) :=
  ⟨⟨rfl, by decide⟩,
   watermark_sessionId_truncation
     ⟨some "10.0.0.7", some "2024-01-01T00:00:00Z",
       some "aaaaaaaa-bbbb-cccc-dddd-eeeeeeeeeeee", none, some "CONFIDENTIAL"⟩
     "aaaaaaaa-bbbb-cccc-dddd-eeeeeeeeeeee" rfl (by decide) (by decide)
     (by decide)
     (by intro v hv; injection hv with h; rw [← h]; decide)
     (by intro v hv; injection hv with h; rw [← h]; decide)
     (by intro v hv; injection hv with h; rw [← h]; decide)⟩

/-! ## Page release route (GET /api/docs/[docId]/pages/[page])

The route handler orchestrates rate limit, nonce authorization, document
lookup, page bound check, render, watermark, and response.  The registry
lookup (`getDocument`), file read (`fs`), decryption, PDF rasterisation and
sharp compositing are external capabilities collected in `PageRouteEnv`.  The
decrypted-document cache is modelled as transparent (a miss re-decrypts;
per the spec its eviction must not affect correctness).  Writes to the
append-only access log do not influence any response or any nonce/rate state
and are not modelled.
-/

structure WatermarkPolicy where
  showIp : Bool
  showTimestamp : Bool
  showSessionId : Bool
  customText : Option String
deriving Repr, DecidableEq

structure DocumentMetadata where
  docId : String
  title : String
  encryptedPath : String
  contentType : String
  pageCount : Option Nat
  watermarkPolicy : WatermarkPolicy
  status : String
deriving Repr, DecidableEq

/-- JS property read on a nonce row object.  The row objects returned by the
database driver carry exactly the SQL column names of the `nonces` table
(`doc_id`, `nonce`, `session_id`, `created_at`, plus the non-string `id` and
`used`); reading any other property name yields `undefined`, modelled as
`none`.  The route source reads `nonceInfo.sessionId` (camel case), which is
not a column of the row. -/
def NonceRow.getProp (r : NonceRow) (prop : String) : Option String :=
  if prop = "doc_id" then some r.doc_id
  else if prop = "nonce" then some r.nonce
  else if prop = "session_id" then some r.session_id
  else if prop = "created_at" then some r.created_at
  else none

inductive ApiResponse where
  | json (status : Nat) (error : String)
  | image (bytes : List Nat) (contentType cacheControl : String)
      (xPage xTotalPages : Nat)
deriving Repr, DecidableEq

def ApiResponse.status : ApiResponse → Nat
  | .json s _ => s
  | .image _ _ _ _ _ => 200

/-- External capabilities consumed by the route. -/
structure PageRouteEnv where
  getDocument : String → Option DocumentMetadata
  fileBytes : String → Option (List Nat)
  decryptBuffer : List Nat → List Nat
  getPageCount : List Nat → Nat
  renderPage : List Nat → Nat → List Nat
  composite : List Nat → String → List Nat

/-- The `imageTypes` array of the route. -/
def imageTypes : List String :=
  ["image/jpeg", "image/png", "image/webp", "image/bmp"]

def pagesEndpoint : String := "/api/docs/pages"

/-- The `WatermarkInfo` object literal the route passes to `applyWatermark`:
each field is gated by the document's watermark policy; `requestId` is never
passed; `customText` comes from the policy unconditionally. -/
def makeWatermarkInfo (policy : WatermarkPolicy) (ip nowIso : String)
    (sessionId : Option String) : WatermarkInfo :=
  { ip := if policy.showIp then some ip else none,
    timestamp := if policy.showTimestamp then some nowIso else none,
    sessionId := if policy.showSessionId then sessionId else none,
    requestId := none,
    customText := policy.customText }

/-- Steps 4-9 of the route (document lookup onward), after the nonce branch
has produced `sessionId`.  Mirrors part 013 lines 99-203: 404 for a missing
or non-active document; images are a single page; PDFs are decrypted,
page-counted and rendered; the rendered page is watermarked and returned
with no-cache headers. -/
def serveDocument (env : PageRouteEnv) (nowIso ip docId : String)
    (pageNumber : Int) (sessionId : Option String) : ApiResponse :=
  match env.getDocument docId with
  | none => .json 404 "Document not found"
  | some document =>
    if document.status ≠ "active" then .json 404 "Document not found"
    else if imageTypes.contains document.contentType then
      if pageNumber > 1 then
        .json 404 ("Page " ++ toString pageNumber
          ++ " does not exist. Image has 1 page.")
      else
        match env.fileBytes document.encryptedPath with
        | none => .json 500 "Document file not found"
        | some encryptedData =>
          .image (applyWatermark env.composite (env.decryptBuffer encryptedData)
              (makeWatermarkInfo document.watermarkPolicy ip nowIso sessionId))
            "image/png" "no-store, no-cache, must-revalidate" pageNumber.toNat 1
    else
      match env.fileBytes document.encryptedPath with
      | none => .json 500 "Document file not found"
      | some encryptedData =>
        if pageNumber > (env.getPageCount (env.decryptBuffer encryptedData) : Int) then
          .json 404 ("Page " ++ toString pageNumber
            ++ " does not exist. Document has "
            ++ toString (env.getPageCount (env.decryptBuffer encryptedData))
            ++ " pages.")
        else
          .image (applyWatermark env.composite
              (env.renderPage (env.decryptBuffer encryptedData) pageNumber.toNat)
              (makeWatermarkInfo document.watermarkPolicy ip nowIso sessionId))
            "image/png" "no-store, no-cache, must-revalidate" pageNumber.toNat
            (env.getPageCount (env.decryptBuffer encryptedData))

/-- Embedding of the route handler (part 013 lines 19-212).  `pageParam` is
the `parseInt` of the page segment (`none` models NaN).  Returns the response
together with the updated nonce table and rate store.  For page 1 the nonce
is consumed; for later pages the nonce record is looked up by nonce alone —
the route never compares the record's `doc_id` with the requested `docId` —
and its `sessionId` property is read with JS property semantics
(`NonceRow.getProp "sessionId"`). -/
def pageRouteGET (env : PageRouteEnv) (cfg : RateLimitConfig) (now : Int)
    (nowIso : String) (docId : String) (pageParam : Option Int)
    (ip : String) (nonceParam : Option String)
    (db : NonceDb) (rl : RateStore) : ApiResponse × NonceDb × RateStore :=
  match pageParam with
  | none => (.json 400 "Invalid page number", db, rl)
  | some pageNumber =>
    if pageNumber < 1 then (.json 400 "Invalid page number", db, rl)
    else if !(checkRateLimit ip pagesEndpoint cfg now rl).1.allowed then
      (.json 429 "Rate limit exceeded", db,
        (checkRateLimit ip pagesEndpoint cfg now rl).2)
    else
      match nonceParam with
      | none => (.json 401 "Nonce required", db,
          (checkRateLimit ip pagesEndpoint cfg now rl).2)
      | some nonce =>
        if pageNumber = 1 then
          match validateAndConsumeNonce docId nonce db with
          | (none, db2) => (.json 401 "Invalid or expired nonce", db2,
              (checkRateLimit ip pagesEndpoint cfg now rl).2)
          | (some sid, db2) =>
              (serveDocument env nowIso ip docId pageNumber (some sid), db2,
                (checkRateLimit ip pagesEndpoint cfg now rl).2)
        else
          match getNonceInfo nonce db with
          | none => (.json 401 "Invalid nonce", db,
              (checkRateLimit ip pagesEndpoint cfg now rl).2)
          | some row =>
            if !row.used then
              (.json 400 "Must request page 1 first", db,
                (checkRateLimit ip pagesEndpoint cfg now rl).2)
            else
              (serveDocument env nowIso ip docId pageNumber
                  (row.getProp "sessionId"), db,
                (checkRateLimit ip pagesEndpoint cfg now rl).2)

/-- C5.  Sequencing violation is 400, not 401: a request for page `p ≥ 2`
presenting a nonce whose record exists but is still unused is answered with
status 400 and the error `Must request page 1 first`, before any document
lookup, leaving the nonce table unchanged. -/
theorem page_route_sequencing_400 (env : PageRouteEnv) (cfg : RateLimitConfig)
    (now : Int) (nowIso docId ip nonce : String) (p : Int) (hp : 2 ≤ p)
    (db : NonceDb) (rl : RateStore)
    (hrate : (checkRateLimit ip pagesEndpoint cfg now rl).1.allowed = true)
    (row : NonceRow) (hfound : getNonceInfo nonce db = some row)
    (hunused : row.used = false) :
    pageRouteGET env cfg now nowIso docId (some p) ip (some nonce) db rl
      = (.json 400 "Must request page 1 first", db,
         (checkRateLimit ip pagesEndpoint cfg now rl).2) := by
  simp [pageRouteGET, hrate, hfound, hunused,
    show ¬ p < 1 by omega, show p ≠ 1 by omega]

/-- Witness for C5: page 2 requested on a freshly minted (unused) nonce. -/
theorem page_route_sequencing_400_witness :
    ((2 : Int) ≤ 2
      ∧ (checkRateLimit "1.2.3.4" pagesEndpoint ⟨200, 60000⟩ 0
          emptyRateStore).1.allowed = true
      ∧ getNonceInfo "n1" [⟨1, "doc-1", "n1", "s1", false, "t0"⟩]
          = some ⟨1, "doc-1", "n1", "s1", false, "t0"⟩
      ∧ (⟨1, "doc-1", "n1", "s1", false, "t0"⟩ : NonceRow).used = false)
    ∧ pageRouteGET ⟨fun _ => none, fun _ => none, id, fun _ => 1, fun b _ => b,
          fun b _ => b⟩ ⟨200, 60000⟩ 0 "2024-01-01T00:00:00Z" "doc-1" (some 2)
        "1.2.3.4" (some "n1") [⟨1, "doc-1", "n1", "s1", false, "t0"⟩]
        emptyRateStore
      = (.json 400 "Must request page 1 first",
         [⟨1, "doc-1", "n1", "s1", false, "t0"⟩],
         (checkRateLimit "1.2.3.4" pagesEndpoint ⟨200, 60000⟩ 0
           emptyRateStore).2) :=
  ⟨⟨by decide, by decide, by decide, rfl⟩,
   page_route_sequencing_400 ⟨fun _ => none, fun _ => none, id, fun _ => 1,
       fun b _ => b, fun b _ => b⟩ ⟨200, 60000⟩ 0 "2024-01-01T00:00:00Z" "doc-1"
     "1.2.3.4" "n1" 2 (by decide) [⟨1, "doc-1", "n1", "s1", false, "t0"⟩]
     emptyRateStore (by decide) ⟨1, "doc-1", "n1", "s1", false, "t0"⟩
     (by decide) rfl⟩

/-- An active multi-page PDF document used by the route theorems. -/
def pdfDoc : DocumentMetadata :=
  { docId := "doc-1", title := "Doc One", encryptedPath := "data/doc1.enc",
    contentType := "application/pdf", pageCount := some 3,
    watermarkPolicy := ⟨false, false, true, none⟩, status := "active" }

/-- A concrete environment: only `doc-1` exists, its encrypted file holds
`[9, 9]`, decryption prepends 7, the PDF has 3 pages, rendering page `n`
prepends `n`, and the compositor visibly rewrites the bytes (prepends 1000)
whenever it runs. -/
def testEnv : PageRouteEnv :=
  { getDocument := fun d => if d = "doc-1" then some pdfDoc else none,
    fileBytes := fun p => if p = "data/doc1.enc" then some [9, 9] else none,
    decryptBuffer := fun b => 7 :: b,
    getPageCount := fun _ => 3,
    renderPage := fun b n => n :: b,
    composite := fun b t => 1000 :: (b ++ [t.length]) }

/-- C3.  Cross-document continuation: a request for page `p ≥ 2` of active
document `d1`, presenting a nonce whose record was minted for (and consumed
against) a DIFFERENT document (`row.doc_id ≠ d1`), passes the route's nonce
authorization — the record is found by nonce alone, its `doc_id` is never
compared against `d1` — and the route serves the rendered, watermarked page
of `d1` with status 200. -/
theorem page_route_cross_document (env : PageRouteEnv) (cfg : RateLimitConfig)
    (now : Int) (nowIso d1 ip nonce : String) (p : Int) (hp : 2 ≤ p)
    (db : NonceDb) (rl : RateStore)
    (hrate : (checkRateLimit ip pagesEndpoint cfg now rl).1.allowed = true)
    (row : NonceRow) (hfound : getNonceInfo nonce db = some row)
    (hused : row.used = true) (hdiff : row.doc_id ≠ d1)
    (document : DocumentMetadata) (hdoc : env.getDocument d1 = some document)
    (hactive : document.status = "active")
    (hnotimg : imageTypes.contains document.contentType = false)
    (enc : List Nat) (hfile : env.fileBytes document.encryptedPath = some enc)
    (hpages : p ≤ ((env.getPageCount (env.decryptBuffer enc)) : Int)) :
    pageRouteGET env cfg now nowIso d1 (some p) ip (some nonce) db rl
      = (.image (applyWatermark env.composite
            (env.renderPage (env.decryptBuffer enc) p.toNat)
            (makeWatermarkInfo document.watermarkPolicy ip nowIso
              (row.getProp "sessionId")))
          "image/png" "no-store, no-cache, must-revalidate" p.toNat
          (env.getPageCount (env.decryptBuffer enc)),
         db, (checkRateLimit ip pagesEndpoint cfg now rl).2) := by
  have hnotimg2 : document.contentType ∉ imageTypes := by simpa using hnotimg
  simp [pageRouteGET, serveDocument, hrate, hfound, hused, hdoc, hactive,
    hnotimg2, hfile, show ¬ p < 1 by omega, show p ≠ 1 by omega,
    show ¬ p > ((env.getPageCount (env.decryptBuffer enc)) : Int) by omega]

/-- Witness for C3: page 2 of `doc-1` authorized by a consumed nonce record
minted for `doc-2`. -/
theorem page_route_cross_document_witness :
    ((2 : Int) ≤ 2
      ∧ (checkRateLimit "1.2.3.4" pagesEndpoint ⟨200, 60000⟩ 0
          emptyRateStore).1.allowed = true
      ∧ getNonceInfo "n1" [⟨1, "doc-2", "n1", "sess-9", true, "t0"⟩]
          = some ⟨1, "doc-2", "n1", "sess-9", true, "t0"⟩
      ∧ (⟨1, "doc-2", "n1", "sess-9", true, "t0"⟩ : NonceRow).used = true
      ∧ (⟨1, "doc-2", "n1", "sess-9", true, "t0"⟩ : NonceRow).doc_id ≠ "doc-1"
      ∧ testEnv.getDocument "doc-1" = some pdfDoc
      ∧ pdfDoc.status = "active"
      ∧ imageTypes.contains pdfDoc.contentType = false
      ∧ testEnv.fileBytes pdfDoc.encryptedPath = some [9, 9]
      ∧ (2 : Int) ≤ ((testEnv.getPageCount (testEnv.decryptBuffer [9, 9])) : Int))
    ∧ pageRouteGET testEnv ⟨200, 60000⟩ 0 "2024-01-01T00:00:00Z" "doc-1"
        (some 2) "1.2.3.4" (some "n1")
        [⟨1, "doc-2", "n1", "sess-9", true, "t0"⟩] emptyRateStore
      = (.image (applyWatermark testEnv.composite
            (testEnv.renderPage (testEnv.decryptBuffer [9, 9]) (2 : Int).toNat)
            (makeWatermarkInfo pdfDoc.watermarkPolicy "1.2.3.4"
              "2024-01-01T00:00:00Z"
              ((⟨1, "doc-2", "n1", "sess-9", true, "t0"⟩ : NonceRow).getProp
                "sessionId")))
          "image/png" "no-store, no-cache, must-revalidate" (2 : Int).toNat
          (testEnv.getPageCount (testEnv.decryptBuffer [9, 9])),
         [⟨1, "doc-2", "n1", "sess-9", true, "t0"⟩],
         (checkRateLimit "1.2.3.4" pagesEndpoint ⟨200, 60000⟩ 0
           emptyRateStore).2) :=
  ⟨⟨by decide, by decide, by decide, rfl, by decide, rfl, rfl, by decide, rfl,
    by decide⟩,
   page_route_cross_document testEnv ⟨200, 60000⟩ 0 "2024-01-01T00:00:00Z"
     "doc-1" "1.2.3.4" "n1" 2 (by decide)
     [⟨1, "doc-2", "n1", "sess-9", true, "t0"⟩] emptyRateStore (by decide)
     ⟨1, "doc-2", "n1", "sess-9", true, "t0"⟩ (by decide) rfl (by decide)
     pdfDoc rfl rfl (by decide) [9, 9] rfl (by decide)⟩

/-- C4.  The session id never reaches the watermark for pages > 1: the route
reads `nonceInfo.sessionId`, but the row object carries the column name
`session_id` (as the `NonceRecord` interface in nonce.ts declares), so the
read yields `undefined`.  Concretely: page 2 of `doc-1`, whose policy enables
only the session-id watermark field, is served 200 but with the RAW rendered
bytes — the compositor (which would prepend 1000) never ran, because the
watermark info contained no session id and the generated label was empty.
The first two conjuncts exhibit the property-name mismatch on the row. -/
theorem page_route_watermark_drops_session :
    (⟨1, "doc-1", "n1", "sess-123456", true, "t0"⟩ : NonceRow).getProp
        "sessionId" = none
    ∧ (⟨1, "doc-1", "n1", "sess-123456", true, "t0"⟩ : NonceRow).getProp
        "session_id" = some "sess-123456"
    ∧ (pageRouteGET testEnv ⟨200, 60000⟩ 0 "2024-01-01T00:00:00Z" "doc-1"
        (some 2) "1.2.3.4" (some "n1")
        [⟨1, "doc-1", "n1", "sess-123456", true, "t0"⟩] emptyRateStore).1
      = .image [2, 7, 9, 9] "image/png" "no-store, no-cache, must-revalidate"
          2 3 := by
  refine ⟨by decide, by decide, ?_⟩
  decide

/-- C8.  Nonce burned on the 404 path: a page-1 request with a valid unused
nonce for document `d` consumes the nonce FIRST; when the document then turns
out to be missing from the registry or not active, the route answers 404 with
the nonce table already rewritten — every row for `(d, nonce)` is left marked
used, and nothing rolls that back. -/
theorem page_route_nonce_burned_on_404 (env : PageRouteEnv)
    (cfg : RateLimitConfig) (now : Int) (nowIso d ip nonce : String)
    (db : NonceDb) (rl : RateStore) (sid : String)
    (hrate : (checkRateLimit ip pagesEndpoint cfg now rl).1.allowed = true)
    (hcons : (validateAndConsumeNonce d nonce db).1 = some sid)
    (hdoc : env.getDocument d = none
      ∨ ∃ document, env.getDocument d = some document
          ∧ document.status ≠ "active") :
    pageRouteGET env cfg now nowIso d (some 1) ip (some nonce) db rl
      = (.json 404 "Document not found", consumeUpdate d nonce db,
         (checkRateLimit ip pagesEndpoint cfg now rl).2)
    ∧ ∀ r ∈ consumeUpdate d nonce db,
        r.doc_id = d → r.nonce = nonce → r.used = true := by
  rcases consume_fst_eq_some d nonce sid db hcons with ⟨r0, hsel, hsid, hsnd⟩
  have heq : validateAndConsumeNonce d nonce db
      = (some sid, consumeUpdate d nonce db) := by
    have h1 : (validateAndConsumeNonce d nonce db).1 = some sid := hcons
    have h2 : (validateAndConsumeNonce d nonce db).2 = consumeUpdate d nonce db :=
      hsnd
    calc validateAndConsumeNonce d nonce db
        = ((validateAndConsumeNonce d nonce db).1,
           (validateAndConsumeNonce d nonce db).2) := rfl
      _ = (some sid, consumeUpdate d nonce db) := by rw [h1, h2]
  refine ⟨?_, consumeUpdate_marks_used d nonce db⟩
  rcases hdoc with hnone | ⟨document, hsome, hinactive⟩
  · simp [pageRouteGET, serveDocument, hrate, heq, hnone]
  · simp [pageRouteGET, serveDocument, hrate, heq, hsome, hinactive]

/-- Witness for C8: page 1 of `doc-2` (absent from the registry) with a valid
unused nonce; the 404 is returned and the nonce row comes back used. -/
theorem page_route_nonce_burned_on_404_witness :
    ((checkRateLimit "1.2.3.4" pagesEndpoint ⟨200, 60000⟩ 0
          emptyRateStore).1.allowed = true
      ∧ (validateAndConsumeNonce "doc-2" "n2"
          [⟨1, "doc-2", "n2", "s2", false, "t0"⟩]).1 = some "s2"
      ∧ testEnv.getDocument "doc-2" = none)
    ∧ (pageRouteGET testEnv ⟨200, 60000⟩ 0 "2024-01-01T00:00:00Z" "doc-2"
          (some 1) "1.2.3.4" (some "n2")
          [⟨1, "doc-2", "n2", "s2", false, "t0"⟩] emptyRateStore
        = (.json 404 "Document not found",
           consumeUpdate "doc-2" "n2" [⟨1, "doc-2", "n2", "s2", false, "t0"⟩],
           (checkRateLimit "1.2.3.4" pagesEndpoint ⟨200, 60000⟩ 0
             emptyRateStore).2)
      ∧ ∀ r ∈ consumeUpdate "doc-2" "n2"
            [⟨1, "doc-2", "n2", "s2", false, "t0"⟩],
          r.doc_id = "doc-2" → r.nonce = "n2" → r.used = true) :=
  ⟨⟨by decide, by decide, rfl⟩,
   page_route_nonce_burned_on_404 testEnv ⟨200, 60000⟩ 0 "2024-01-01T00:00:00Z"
     "doc-2" "1.2.3.4" "n2" [⟨1, "doc-2", "n2", "s2", false, "t0"⟩]
     emptyRateStore "s2" (by decide) (by decide) (Or.inl rfl)⟩

end SecurePdfViewer
